import Mathlib

/-!
Verification development for the BRKGA-MP-IPR driver
`examples/tsp/src/single_obj/main_maximum_iterations.cpp` and the
optimization engine it instantiates.  The driver source is embedded
directly; the engine (`brkga_mp_ipr.hpp`) is not part of the source tree,
so its data model and operations are modelled from the specification.
-/

/-- Modelled from the spec: a Random Key Chromosome is a fixed-length vector of
real values in [0,1); reals are embedded as rationals. -/
abbrev Chromosome := List ℚ

/-- Modelled from the spec: an Individual is a (Chromosome, Fitness) pair with
the fitness cached; fitness is a totally ordered scalar, embedded as an
integer. -/
structure Individual where
  chromosome : Chromosome
  fitness : Int
deriving DecidableEq, Repr

/-- The optimization sense, `BRKGA::Sense` in the engine's interface
(the driver selects `Sense::MINIMIZE` at line 88). -/
inductive Sense where
  | MINIMIZE
  | MAXIMIZE
deriving DecidableEq, Repr

/-- `Sense.better s a b` holds when fitness `a` is strictly better than
fitness `b` under sense `s`. -/
def Sense.better : Sense → Int → Int → Bool
  | .MINIMIZE, a, b => a < b
  | .MAXIMIZE, a, b => b < a

/-- `Sense.betterEq s a b` holds when fitness `a` is at least as good as
fitness `b` under sense `s`. -/
def Sense.betterEq : Sense → Int → Int → Bool
  | .MINIMIZE, a, b => a ≤ b
  | .MAXIMIZE, a, b => b ≤ a

/-- Ranking relation used to keep populations sorted best-to-worst. -/
def rankLE (s : Sense) (a b : Individual) : Bool :=
  s.betterEq a.fitness b.fitness

/-- Modelled from the spec: populations are kept as sequences sorted
best-to-worst under the configured sense. -/
def sortPop (s : Sense) (pop : List Individual) : List Individual :=
  pop.mergeSort (rankLE s)

/-- A population is sorted best-to-worst under sense `s`. -/
def PopSorted (s : Sense) (l : List Individual) : Prop :=
  l.Pairwise (fun a b => rankLE s a b = true)

theorem rankLE_trans (s : Sense) :
    ∀ a b c : Individual, rankLE s a b → rankLE s b c → rankLE s a c := by
  intro a b c hab hbc
  cases s <;> simp [rankLE, Sense.betterEq] at * <;> omega

theorem rankLE_total (s : Sense) :
    ∀ a b : Individual, rankLE s a b || rankLE s b a := by
  intro a b
  cases s <;> simp [rankLE, Sense.betterEq] <;> omega

theorem rankLE_refl (s : Sense) (a : Individual) : rankLE s a a = true := by
  cases s <;> simp [rankLE, Sense.betterEq]

theorem sortPop_sorted (s : Sense) (l : List Individual) :
    PopSorted s (sortPop s l) :=
  List.sorted_mergeSort (rankLE_trans s) (rankLE_total s) l

theorem sortPop_perm (s : Sense) (l : List Individual) :
    (sortPop s l).Perm l :=
  List.mergeSort_perm l (rankLE s)

theorem length_sortPop (s : Sense) (l : List Individual) :
    (sortPop s l).length = l.length :=
  (sortPop_perm s l).length_eq

theorem mem_sortPop (s : Sense) (l : List Individual) (a : Individual) :
    a ∈ sortPop s l ↔ a ∈ l :=
  (sortPop_perm s l).mem_iff

/-- Decode a batch of chromosomes into individuals with cached fitness. -/
def decodeAll (decode : Chromosome → Int) (cs : List Chromosome) : List Individual :=
  cs.map (fun c => ⟨c, decode c⟩)

/-- Modelled from the spec: the evolution step of `brkga_mp_ipr.hpp` (absent
from the source tree), section 4.3.  The top `numElites` individuals pass
through unchanged with their cached fitness; crossover offspring and mutant
chromosomes are decoded; elite count plus offspring count plus mutant count
equals the population size; the result is re-sorted best-to-worst. -/
def evolve (s : Sense) (numElites : Nat) (decode : Chromosome → Int)
    (pop : List Individual) (offspring mutants : List Chromosome) : List Individual :=
  sortPop s (pop.take numElites ++ decodeAll decode offspring ++ decodeAll decode mutants)

/-- Modelled from the spec: the exchange operation of `brkga_mp_ipr.hpp`
(absent from the source tree), section 4.4: the worst `count` individuals of
`pop` are replaced by the best `count` individuals of the donor population,
re-sorting afterward. -/
def exchangeBest (s : Sense) (count : Nat) (pop donor : List Individual) : List Individual :=
  sortPop s (pop.take (pop.length - count) ++ donor.take count)

/-- Modelled from the spec: the shake operation of `brkga_mp_ipr.hpp` (absent
from the source tree), section 4.4: non-elite chromosomes are perturbed by
randomized gene replacement and re-decoded; elites are untouched. -/
def shake (s : Sense) (numElites : Nat) (decode : Chromosome → Int)
    (perturb : Chromosome → Chromosome) (pop : List Individual) : List Individual :=
  sortPop s (pop.take numElites ++
    (pop.drop numElites).map (fun ind => ⟨perturb ind.chromosome, decode (perturb ind.chromosome)⟩))

/-- Modelled from the spec: the reset operation of `brkga_mp_ipr.hpp` (absent
from the source tree), sections 4.2 and 4.4: the population is fully
reinitialized with `p` freshly drawn chromosomes, decoded and sorted. -/
def resetPop (s : Sense) (decode : Chromosome → Int) (p : Nat)
    (fresh : Nat → Chromosome) : List Individual :=
  sortPop s (decodeAll decode ((List.range p).map fresh))

/-- Modelled from the spec: injection of a path-relinking result into a
population, `brkga_mp_ipr.hpp` (absent from the source tree), section 4.5:
the improving solution displaces the current worst individual, then the
population is re-sorted. -/
def injectRelink (s : Sense) (pop : List Individual) (ind : Individual) : List Individual :=
  sortPop s (pop.dropLast ++ [ind])

/-- C5: for all populations at all times the size equals `population_size`
and the sequence is sorted best-to-worst consistent with the sense: each of
the five operations (evolution step, exchange, shake, reset, relink
injection) returns a population of size `p` that is sorted. -/
theorem population_size_and_sorted_invariant
    (s : Sense) (decode : Chromosome → Int) (perturb : Chromosome → Chromosome)
    (fresh : Nat → Chromosome)
    (p numElites count : Nat) (pop donor : List Individual)
    (offspring mutants : List Chromosome) (ind : Individual)
    (hp : pop.length = p)
    (hpos : 1 ≤ p)
    (helite : numElites ≤ p)
    (hcnt : numElites + offspring.length + mutants.length = p)
    (hcount : count ≤ p)
    (hdonor : count ≤ donor.length) :
    ((evolve s numElites decode pop offspring mutants).length = p
      ∧ PopSorted s (evolve s numElites decode pop offspring mutants))
    ∧ ((exchangeBest s count pop donor).length = p
      ∧ PopSorted s (exchangeBest s count pop donor))
    ∧ ((shake s numElites decode perturb pop).length = p
      ∧ PopSorted s (shake s numElites decode perturb pop))
    ∧ ((resetPop s decode p fresh).length = p
      ∧ PopSorted s (resetPop s decode p fresh))
    ∧ ((injectRelink s pop ind).length = p
      ∧ PopSorted s (injectRelink s pop ind)) := by
  refine ⟨⟨?_, sortPop_sorted s _⟩, ⟨?_, sortPop_sorted s _⟩, ⟨?_, sortPop_sorted s _⟩,
    ⟨?_, sortPop_sorted s _⟩, ⟨?_, sortPop_sorted s _⟩⟩
  · simp [evolve, length_sortPop, decodeAll, hp]
    omega
  · simp [exchangeBest, length_sortPop, hp]
    omega
  · simp [shake, length_sortPop, hp]
    omega
  · simp [resetPop, length_sortPop, decodeAll]
  · simp [injectRelink, length_sortPop, hp]
    omega

/-- Witness for `population_size_and_sorted_invariant` at a concrete
instantiation. -/
theorem population_size_and_sorted_invariant_witness :
    ((evolve Sense.MINIMIZE 1 (fun _ => 0) [⟨[0], 0⟩, ⟨[1], 1⟩] [[1/2]] []).length = 2
      ∧ PopSorted Sense.MINIMIZE (evolve Sense.MINIMIZE 1 (fun _ => 0) [⟨[0], 0⟩, ⟨[1], 1⟩] [[1/2]] []))
    ∧ ((exchangeBest Sense.MINIMIZE 1 [⟨[0], 0⟩, ⟨[1], 1⟩] [⟨[0], 0⟩]).length = 2
      ∧ PopSorted Sense.MINIMIZE (exchangeBest Sense.MINIMIZE 1 [⟨[0], 0⟩, ⟨[1], 1⟩] [⟨[0], 0⟩]))
    ∧ ((shake Sense.MINIMIZE 1 (fun _ => 0) id [⟨[0], 0⟩, ⟨[1], 1⟩]).length = 2
      ∧ PopSorted Sense.MINIMIZE (shake Sense.MINIMIZE 1 (fun _ => 0) id [⟨[0], 0⟩, ⟨[1], 1⟩]))
    ∧ ((resetPop Sense.MINIMIZE (fun _ => 0) 2 (fun _ => [])).length = 2
      ∧ PopSorted Sense.MINIMIZE (resetPop Sense.MINIMIZE (fun _ => 0) 2 (fun _ => [])))
    ∧ ((injectRelink Sense.MINIMIZE [⟨[0], 0⟩, ⟨[1], 1⟩] ⟨[], 5⟩).length = 2
      ∧ PopSorted Sense.MINIMIZE (injectRelink Sense.MINIMIZE [⟨[0], 0⟩, ⟨[1], 1⟩] ⟨[], 5⟩)) :=
  population_size_and_sorted_invariant Sense.MINIMIZE (fun _ => 0) id (fun _ => [])
    2 1 1 [⟨[0], 0⟩, ⟨[1], 1⟩] [⟨[0], 0⟩] [[1/2]] [] ⟨[], 5⟩
    (by decide) (by decide) (by decide) (by decide) (by decide) (by decide)

theorem head_betterEq_of_sorted (s : Sense) (b : Individual) (t : List Individual)
    (hsorted : PopSorted s (b :: t)) (a : Individual) (ha : a ∈ b :: t) :
    Sense.betterEq s b.fitness a.fitness = true := by
  rcases List.mem_cons.mp ha with h | h
  · subst h
    exact rankLE_refl s a
  · exact (List.pairwise_cons.mp hsorted).1 a h

/-- C4: elite preservation under the evolution step: every elite individual
of generation g appears unchanged (same chromosome, same cached fitness) in
generation g+1, and the best fitness of the population after the step is at
least as good as before it. -/
theorem elite_preservation
    (s : Sense) (numElites : Nat) (decode : Chromosome → Int)
    (pop : List Individual) (offspring mutants : List Chromosome)
    (hsorted : PopSorted s pop) (helite : 1 ≤ numElites) :
    (∀ ind ∈ pop.take numElites, ind ∈ evolve s numElites decode pop offspring mutants)
    ∧ (∀ b ∈ (evolve s numElites decode pop offspring mutants).head?, ∀ a ∈ pop.head?,
        Sense.betterEq s b.fitness a.fitness = true) := by
  have hmem : ∀ ind ∈ pop.take numElites, ind ∈ evolve s numElites decode pop offspring mutants := by
    intro ind hind
    unfold evolve
    rw [mem_sortPop]
    exact List.mem_append_left _ (List.mem_append_left _ hind)
  refine ⟨hmem, ?_⟩
  intro b hb a ha
  rcases hpop : pop with _ | ⟨x, rest⟩
  · subst hpop
    simp at ha
  · have hax : x = a := by
      rw [hpop] at ha
      simpa using ha
    have hx_elite : x ∈ pop.take numElites := by
      rw [hpop]
      rcases numElites with _ | e
      · omega
      · simp
    have hx_mem : x ∈ evolve s numElites decode pop offspring mutants := hmem x hx_elite
    rcases hev : evolve s numElites decode pop offspring mutants with _ | ⟨y, t⟩
    · rw [hev] at hx_mem
      simp at hx_mem
    · have hyb : y = b := by
        rw [hev] at hb
        simpa using hb
      have hsorted' : PopSorted s (y :: t) := by
        rw [← hev]
        exact sortPop_sorted s _
      rw [hev] at hx_mem
      rw [← hyb, ← hax]
      exact head_betterEq_of_sorted s y t hsorted' x hx_mem

/-- Witness for `elite_preservation` at a concrete instantiation. -/
theorem elite_preservation_witness :
    (∀ ind ∈ [(⟨[0], 0⟩ : Individual), ⟨[1], 1⟩].take 1,
        ind ∈ evolve Sense.MINIMIZE 1 (fun _ => 7) [⟨[0], 0⟩, ⟨[1], 1⟩] [[1/2]] [])
    ∧ (∀ b ∈ (evolve Sense.MINIMIZE 1 (fun _ => 7) [⟨[0], 0⟩, ⟨[1], 1⟩] [[1/2]] []).head?,
        ∀ a ∈ ([(⟨[0], 0⟩ : Individual), ⟨[1], 1⟩] : List Individual).head?,
        Sense.betterEq Sense.MINIMIZE b.fitness a.fitness = true) :=
  elite_preservation Sense.MINIMIZE 1 (fun _ => 7) [⟨[0], 0⟩, ⟨[1], 1⟩] [[1/2]] []
    (by unfold PopSorted; decide) (by decide)

/-- The run-state snapshot `BRKGA::AlgorithmStatus` consulted by the stopping
predicate.  `stall_count` is a C++ `unsigned` (kept below 2^32);
`elapsed_seconds` is the count of a `std::chrono::seconds` value (a signed
64-bit integer in C++). -/
structure AlgorithmStatus where
  current_iteration : Nat
  best_fitness : Int
  stall_count : Nat
  elapsed_seconds : Nat
deriving DecidableEq, Repr

/-- `BRKGA::ControlParams`: the two fields the driver overrides
(main_maximum_iterations.cpp lines 75-77). -/
structure ControlParams where
  maximum_running_time : Nat
  stall_offset : Nat
deriving DecidableEq, Repr

/-- The driver's control parameters (main_maximum_iterations.cpp lines
75-77): `maximum_running_time = std::chrono::seconds::max()` whose count is
2^63 - 1, and `stall_offset = numeric_limits<unsigned>::max()` = 2^32 - 1. -/
def driverControlParams : ControlParams :=
  { maximum_running_time := 2 ^ 63 - 1, stall_offset := 2 ^ 32 - 1 }

/-- The driver's stopping predicate (main_maximum_iterations.cpp lines
93-97): fires exactly when `status.current_iteration ==
maximum_number_of_iterations`. -/
def driverStoppingCriteria (maxIters : Nat) (status : AlgorithmStatus) : Bool :=
  status.current_iteration == maxIters

/-- Modelled from the spec: the Best-Known Solution update of
`brkga_mp_ipr.hpp` (absent from the source tree): the incumbent is replaced
only by a strictly better candidate under the sense. -/
def updateBest (s : Sense) (best cand : Int) : Int :=
  if s.better cand best then cand else best

/-- Modelled from the spec: one generation-level advance of the control loop
of `brkga_mp_ipr.hpp` (absent from the source tree), section 4.7: evolve all
populations (the best candidate fitness that generation is abstracted as
`cand g`), then update the status: generation counter increments, best
fitness never regresses, the stall counter (an `unsigned`, hence kept modulo
2^32) resets on improvement, and the elapsed time is observed
(`time g`, in seconds). -/
def stepStatus (s : Sense) (cand : Nat → Int) (time : Nat → Nat)
    (st : AlgorithmStatus) : AlgorithmStatus :=
  { current_iteration := st.current_iteration + 1
    best_fitness := updateBest s st.best_fitness (cand st.current_iteration)
    stall_count :=
      if s.better (updateBest s st.best_fitness (cand st.current_iteration)) st.best_fitness
      then 0 else (st.stall_count + 1) % 2 ^ 32
    elapsed_seconds := time st.current_iteration }

/-- Modelled from the spec: the stop test evaluated once per completed
generation, sections 4.6 and 4.7: the user predicate, or the maximum running
time exceeded, or more than `stall_offset` generations without improvement. -/
def stopFired (cp : ControlParams) (pred : AlgorithmStatus → Bool)
    (st : AlgorithmStatus) : Bool :=
  pred st || decide (cp.maximum_running_time < st.elapsed_seconds)
    || decide (cp.stall_offset < st.stall_count)

/-- Modelled from the spec: the control loop of `brkga_mp_ipr.hpp` (absent
from the source tree), section 4.7, as a fuelled recursion: each round
performs one generation-level advance and stops the first time the stop test
fires; `none` means the fuel ran out before the loop terminated. -/
def runLoop (s : Sense) (cp : ControlParams) (pred : AlgorithmStatus → Bool)
    (cand : Nat → Int) (time : Nat → Nat) :
    Nat → AlgorithmStatus → Option AlgorithmStatus
  | 0, _ => none
  | fuel + 1, st =>
    if stopFired cp pred (stepStatus s cand time st)
    then some (stepStatus s cand time st)
    else runLoop s cp pred cand time fuel (stepStatus s cand time st)

/-- The initial status: generation counter zero, incumbent best from the
decoded initial populations. -/
def initialStatus (best0 : Int) : AlgorithmStatus :=
  { current_iteration := 0, best_fitness := best0, stall_count := 0, elapsed_seconds := 0 }

theorem stepStatus_stall_lt (s : Sense) (cand : Nat → Int) (time : Nat → Nat)
    (st : AlgorithmStatus) : (stepStatus s cand time st).stall_count < 2 ^ 32 := by
  simp only [stepStatus]
  split
  · positivity
  · exact Nat.mod_lt _ (by positivity)

theorem driver_stopFired_eq_pred (pred : AlgorithmStatus → Bool) (st : AlgorithmStatus)
    (htime : st.elapsed_seconds ≤ 2 ^ 63 - 1) (hstall : st.stall_count < 2 ^ 32) :
    stopFired driverControlParams pred st = pred st := by
  have h1 : decide (driverControlParams.maximum_running_time < st.elapsed_seconds) = false := by
    have hn : ¬ driverControlParams.maximum_running_time < st.elapsed_seconds := by
      simp only [driverControlParams]
      omega
    simpa using hn
  have h2 : decide (driverControlParams.stall_offset < st.stall_count) = false := by
    have hn : ¬ driverControlParams.stall_offset < st.stall_count := by
      simp only [driverControlParams]
      omega
    simpa using hn
  simp only [stopFired, h1, h2, Bool.or_false]

theorem runLoop_zero (s : Sense) (cp : ControlParams) (pred : AlgorithmStatus → Bool)
    (cand : Nat → Int) (time : Nat → Nat) (st : AlgorithmStatus) :
    runLoop s cp pred cand time 0 st = none := rfl

theorem runLoop_succ (s : Sense) (cp : ControlParams) (pred : AlgorithmStatus → Bool)
    (cand : Nat → Int) (time : Nat → Nat) (fuel : Nat) (st : AlgorithmStatus) :
    runLoop s cp pred cand time (fuel + 1) st =
      if stopFired cp pred (stepStatus s cand time st)
      then some (stepStatus s cand time st)
      else runLoop s cp pred cand time fuel (stepStatus s cand time st) := rfl

/-- C9: the driver sets `maximum_running_time` to the maximum representable
`std::chrono::seconds` and `stall_offset` to the maximum `unsigned`, so for
any terminating run under these control parameters the stop was caused by the
stopping predicate: the final status satisfies the predicate, while the time
and stall criteria can never fire (the stall counter, an `unsigned`, never
exceeds 2^32 - 1, and any representable elapsed time never exceeds
2^63 - 1 seconds). -/
theorem termination_only_by_stopping_predicate
    (s : Sense) (pred : AlgorithmStatus → Bool) (cand : Nat → Int) (time : Nat → Nat)
    (fuel : Nat) (st0 st : AlgorithmStatus)
    (htime : ∀ g, time g ≤ 2 ^ 63 - 1)
    (h : runLoop s driverControlParams pred cand time fuel st0 = some st) :
    driverControlParams.maximum_running_time = 2 ^ 63 - 1
    ∧ driverControlParams.stall_offset = 2 ^ 32 - 1
    ∧ pred st = true := by
  refine ⟨rfl, rfl, ?_⟩
  induction fuel generalizing st0 with
  | zero =>
    rw [runLoop_zero] at h
    exact absurd h (by simp)
  | succ fuel ih =>
    rw [runLoop_succ] at h
    have ht' : (stepStatus s cand time st0).elapsed_seconds ≤ 2 ^ 63 - 1 := by
      simp only [stepStatus]
      exact htime _
    rw [driver_stopFired_eq_pred pred (stepStatus s cand time st0) ht'
      (stepStatus_stall_lt s cand time st0)] at h
    by_cases hp : pred (stepStatus s cand time st0) = true
    · rw [hp] at h
      simp only [if_pos] at h
      have hst : stepStatus s cand time st0 = st := by
        simpa using h
      rw [← hst]
      exact hp
    · rw [Bool.not_eq_true] at hp
      rw [hp] at h
      simp only [Bool.false_eq_true, if_false] at h
      exact ih _ h

/-- Witness for `termination_only_by_stopping_predicate` at a concrete run. -/
theorem termination_only_by_stopping_predicate_witness :
    (∀ g : Nat, (fun _ : Nat => 0) g ≤ 2 ^ 63 - 1)
    ∧ (driverControlParams.maximum_running_time = 2 ^ 63 - 1
      ∧ driverControlParams.stall_offset = 2 ^ 32 - 1
      ∧ driverStoppingCriteria 1 ⟨1, 0, 1, 0⟩ = true) :=
  ⟨by intro g; exact Nat.zero_le _,
    termination_only_by_stopping_predicate Sense.MINIMIZE (driverStoppingCriteria 1)
      (fun _ => 0) (fun _ => 0) 2 (initialStatus 0) ⟨1, 0, 1, 0⟩
      (by intro g; exact Nat.zero_le _) (by decide)⟩

theorem runLoop_driver_reaches (s : Sense) (cand : Nat → Int) (time : Nat → Nat)
    (maxIters : Nat) (htime : ∀ g, time g ≤ 2 ^ 63 - 1) :
    ∀ fuel st0, st0.current_iteration < maxIters →
      maxIters ≤ st0.current_iteration + fuel →
      ∃ st, runLoop s driverControlParams (driverStoppingCriteria maxIters)
          cand time fuel st0 = some st
        ∧ st.current_iteration = maxIters := by
  intro fuel
  induction fuel with
  | zero =>
    intro st0 h1 h2
    omega
  | succ fuel ih =>
    intro st0 h1 h2
    have ht' : (stepStatus s cand time st0).elapsed_seconds ≤ 2 ^ 63 - 1 := by
      simp only [stepStatus]
      exact htime _
    have hfe := driver_stopFired_eq_pred (driverStoppingCriteria maxIters)
      (stepStatus s cand time st0) ht' (stepStatus_stall_lt s cand time st0)
    have hiter : (stepStatus s cand time st0).current_iteration = st0.current_iteration + 1 := rfl
    by_cases hm : st0.current_iteration + 1 = maxIters
    · refine ⟨stepStatus s cand time st0, ?_, by rw [hiter, hm]⟩
      rw [runLoop_succ, hfe]
      have hp : driverStoppingCriteria maxIters (stepStatus s cand time st0) = true := by
        simp [driverStoppingCriteria, hiter, hm]
      rw [hp]
      simp
    · have hp : driverStoppingCriteria maxIters (stepStatus s cand time st0) = false := by
        simp [driverStoppingCriteria, hiter]
        omega
      have hlt : (stepStatus s cand time st0).current_iteration < maxIters := by
        rw [hiter]
        omega
      have hle : maxIters ≤ (stepStatus s cand time st0).current_iteration + fuel := by
        rw [hiter]
        omega
      obtain ⟨st, hrun, hst⟩ := ih (stepStatus s cand time st0) hlt hle
      refine ⟨st, ?_, hst⟩
      rw [runLoop_succ, hfe, hp]
      simpa using hrun

/-- C1: with the driver's stopping predicate (which is true exactly when
`current_iteration` equals `maximum_number_of_iterations`), the control loop
stops at the first generation boundary at which the predicate returns true
and the run returns a status whose `current_iteration` equals
`maximum_number_of_iterations` (the generation counter starts at 0 and
increments once per generation, so exactly that many generations run: never
one fewer, never one more).  A positive iteration bound is required: the
predicate is evaluated only at completed-generation boundaries, so with a
bound of 0 it never fires and the loop does not terminate (the spec's
caller-error case). -/
theorem driver_run_stops_exactly_at_max_iterations
    (s : Sense) (cand : Nat → Int) (time : Nat → Nat) (maxIters fuel : Nat) (best0 : Int)
    (htime : ∀ g, time g ≤ 2 ^ 63 - 1)
    (hmax : 1 ≤ maxIters) (hfuel : maxIters ≤ fuel) :
    (∀ st, driverStoppingCriteria maxIters st = true ↔ st.current_iteration = maxIters)
    ∧ ∃ st, runLoop s driverControlParams (driverStoppingCriteria maxIters)
          cand time fuel (initialStatus best0) = some st
        ∧ st.current_iteration = maxIters := by
  constructor
  · intro st
    simp [driverStoppingCriteria]
  · exact runLoop_driver_reaches s cand time maxIters htime fuel (initialStatus best0)
      (by simp [initialStatus]; omega) (by simp [initialStatus]; omega)

/-- Witness for `driver_run_stops_exactly_at_max_iterations` at a concrete
run of two generations. -/
theorem driver_run_stops_exactly_at_max_iterations_witness :
    (∀ st, driverStoppingCriteria 2 st = true ↔ st.current_iteration = 2)
    ∧ ∃ st, runLoop Sense.MINIMIZE driverControlParams (driverStoppingCriteria 2)
          (fun _ => 0) (fun _ => 0) 3 (initialStatus 5) = some st
        ∧ st.current_iteration = 2 :=
  driver_run_stops_exactly_at_max_iterations Sense.MINIMIZE (fun _ => 0) (fun _ => 0)
    2 3 5 (by intro g; exact Nat.zero_le _) (by decide) (by decide)

/-- C2: the Best-Known Solution never regresses: along the run (the iterates
of the generation-level status advance), the best fitness at generation g+1
is at least as good as at generation g under the configured sense. -/
theorem best_known_never_regresses
    (s : Sense) (cand : Nat → Int) (time : Nat → Nat) (init : AlgorithmStatus) (g : Nat) :
    Sense.betterEq s ((stepStatus s cand time)^[g + 1] init).best_fitness
      ((stepStatus s cand time)^[g] init).best_fitness = true := by
  rw [Function.iterate_succ_apply']
  generalize (stepStatus s cand time)^[g] init = st
  show Sense.betterEq s (stepStatus s cand time st).best_fitness st.best_fitness = true
  simp only [stepStatus, updateBest]
  split
  · rename_i hcond
    cases s <;> simp_all [Sense.betterEq, Sense.better] <;> omega
  · cases s <;> simp [Sense.betterEq]

/-- Modelled from the spec: direct (coordinate-wise) path relinking of
`brkga_mp_ipr.hpp` (absent from the source tree), section 4.5: the sequence
of intermediate chromosomes obtained by incrementally replacing genes of the
base with the corresponding genes of the guide (the final full copy of the
guide is not an intermediate). -/
def directIntermediates (base guide : Chromosome) : List Chromosome :=
  (List.range (base.length - 1)).map (fun i => guide.take (i + 1) ++ base.drop (i + 1))

/-- The best individual of a list under the sense (the head standing as the
incumbent, replaced only by strictly better candidates). -/
def bestIndividual (s : Sense) : List Individual → Option Individual
  | [] => none
  | x :: xs => some (xs.foldl (fun acc ind => if s.better ind.fitness acc.fitness then ind else acc) x)

/-- Modelled from the spec: the path relinking module of `brkga_mp_ipr.hpp`
(absent from the source tree), section 4.5: every intermediate between the
base and the guide is decoded; the best intermediate is returned when it is
strictly better than both endpoints under the sense, and no-result is
signalled otherwise. -/
def pathRelink (s : Sense) (decode : Chromosome → Int)
    (base guide : Chromosome) : Option Individual :=
  match bestIndividual s (decodeAll decode (directIntermediates base guide)) with
  | none => none
  | some ind =>
    if s.better ind.fitness (decode base) && s.better ind.fitness (decode guide)
    then some ind else none

/-- C6: whenever the path relinking module returns a solution, that solution
is strictly better than both the base and the guiding endpoints under the
sense; otherwise it reports no-result. -/
theorem path_relinking_strictly_improves
    (s : Sense) (decode : Chromosome → Int) (base guide : Chromosome) (ind : Individual)
    (h : pathRelink s decode base guide = some ind) :
    Sense.better s ind.fitness (decode base) = true
    ∧ Sense.better s ind.fitness (decode guide) = true := by
  unfold pathRelink at h
  rcases hb : bestIndividual s (decodeAll decode (directIntermediates base guide)) with _ | cand
  · rw [hb] at h
    simp at h
  · rw [hb] at h
    have h' : (if (s.better cand.fitness (decode base) && s.better cand.fitness (decode guide)) = true
        then some cand else none) = some ind := h
    by_cases hcond :
        (s.better cand.fitness (decode base) && s.better cand.fitness (decode guide)) = true
    · rw [if_pos hcond] at h'
      have hcand : cand = ind := by simpa using h'
      rw [← hcand]
      exact And.imp (fun a => a) (fun a => a) (Bool.and_eq_true _ _ |>.mp hcond)
    · rw [if_neg hcond] at h'
      simp at h'

/-- Witness for `path_relinking_strictly_improves`: relinking base [0, 0]
toward guide [1, 1] visits the intermediate [1, 0], which this decoder maps
to a strictly better fitness than both endpoints. -/
theorem path_relinking_strictly_improves_witness :
    pathRelink Sense.MINIMIZE (fun c => if c = [1, 0] then 0 else 1) [0, 0] [1, 1]
      = some ⟨[1, 0], 0⟩
    ∧ (Sense.better Sense.MINIMIZE (0 : Int) ((fun c : Chromosome => if c = [1, 0] then 0 else 1) [0, 0]) = true
      ∧ Sense.better Sense.MINIMIZE (0 : Int) ((fun c : Chromosome => if c = [1, 0] then 0 else 1) [1, 1]) = true) :=
  ⟨by decide,
    path_relinking_strictly_improves Sense.MINIMIZE (fun c => if c = [1, 0] then 0 else 1)
      [0, 0] [1, 1] ⟨[1, 0], 0⟩ (by decide)⟩

/-- Observable outcome of the driver process: exit code, and whether usage
text and/or exception text was written to stderr. -/
structure DriverOutcome where
  exit_code : Nat
  usage_to_stderr : Bool
  exception_to_stderr : Bool
deriving DecidableEq, Repr

/-- The driver's `main` (main_maximum_iterations.cpp lines 39-122): if
`argc < 4` it prints the usage text to stderr and returns 1 (lines 40-47);
otherwise the try-block body runs, whose effect is abstracted as an
`Except`: any `std::exception` is caught, reported on stderr, and `main`
returns 1 (lines 113-120); without an exception it returns 0 (line 121). -/
def mainDriver (argc : Nat) (body : Except String Unit) : DriverOutcome :=
  if argc < 4 then { exit_code := 1, usage_to_stderr := true, exception_to_stderr := false }
  else
    match body with
    | .ok _ => { exit_code := 0, usage_to_stderr := false, exception_to_stderr := false }
    | .error _ => { exit_code := 1, usage_to_stderr := false, exception_to_stderr := true }

/-- The number of command-line arguments the driver requires, as documented
by its own usage message (lines 41-45): seed, config-file,
maximum-number-of-iterations, tsp-instance-file.  A full invocation
therefore has `argc = 5` (program name plus four arguments). -/
def requiredUserArgs : Nat := 4

/-- C3 (code bug, off-by-one in the argc guard): the driver requires four
user arguments (`argv[4]`, the instance file, is read unconditionally at
line 57), yet the guard at line 40 is `argc < 4`.  An invocation with
exactly three user arguments (`argc = 4`, instance file missing) therefore
does not print the usage text: `main` proceeds and reads `argv[4]`, which is
the null `argv[argc]` terminator.  The guard fires only for `argc ≤ 3`. -/
theorem usage_guard_misses_missing_instance_file :
    requiredUserArgs = 4
    ∧ (∀ body, (mainDriver (1 + requiredUserArgs - 1) body).usage_to_stderr = false)
    ∧ (∀ body, mainDriver 3 body =
        { exit_code := 1, usage_to_stderr := true, exception_to_stderr := false }) := by
  refine ⟨rfl, ?_, ?_⟩
  · intro body
    rcases body with _ | _ <;> rfl
  · intro body
    rfl

/-- Modelled from the spec: the engine evaluates decoder calls and does not
catch decode errors (section 7, error taxonomy item b): a failing decode
aborts the sequence and the error propagates unchanged to the caller. -/
def engineDecodeSequence (decodes : List (Except String Unit)) : Except String Unit := do
  let _ ← decodes.mapM id
  pure ()

/-- C7: a decode error propagates unchanged through the engine; the driver
catches every exception, reports it on stderr, and exits with code 1; the
driver exits with code 0 exactly when the run body completes without an
exception. -/
theorem driver_catches_every_exception (argc : Nat) (hargc : 4 ≤ argc) :
    (∀ msg rest, engineDecodeSequence (Except.error msg :: rest) = Except.error msg)
    ∧ (∀ msg, mainDriver argc (Except.error msg) =
        { exit_code := 1, usage_to_stderr := false, exception_to_stderr := true })
    ∧ (∀ body, (mainDriver argc body).exit_code = 0 ↔ body = Except.ok ()) := by
  have hge : ¬ argc < 4 := by omega
  refine ⟨fun msg rest => rfl, ?_, ?_⟩
  · intro msg
    simp [mainDriver, hge]
  · intro body
    rcases body with u | msg
    · cases u
      simp [mainDriver, hge]
    · simp [mainDriver, hge]

/-- Witness for `driver_catches_every_exception` at `argc = 5`. -/
theorem driver_catches_every_exception_witness :
    4 ≤ 5
    ∧ ((∀ msg rest, engineDecodeSequence (Except.error msg :: rest) = Except.error msg)
      ∧ (∀ msg, mainDriver 5 (Except.error msg) =
          { exit_code := 1, usage_to_stderr := false, exception_to_stderr := true })
      ∧ (∀ body, (mainDriver 5 body).exit_code = 0 ↔ body = Except.ok ())) :=
  ⟨by decide, driver_catches_every_exception 5 (by decide)⟩

/-- The maximal run of leading decimal digits, as consumed by `std::stoi`
after sign handling; `none` when no digit is found (in which case `stoi`
throws `std::invalid_argument`). -/
def digitsRun (cs : List Char) : Option Nat :=
  let ds := cs.takeWhile Char.isDigit
  if ds.isEmpty then none
  else some (ds.foldl (fun a c => 10 * a + (c.toNat - 48)) 0)

/-- Optional sign followed by a digit run, as parsed by `std::stoi`. -/
def parseSigned : List Char → Option Int
  | '-' :: rest => (digitsRun rest).map (fun n => -(n : Int))
  | '+' :: rest => (digitsRun rest).map (fun n => (n : Int))
  | cs => (digitsRun cs).map (fun n => (n : Int))

/-- Model of `std::stoi` (base 10) as called at lines 54 and 56: leading
spaces are skipped, an optional sign and a maximal digit run are parsed, and
the value must fit in a 32-bit signed `int`; `none` stands for a thrown
`std::invalid_argument` or `std::out_of_range` (which the driver's catch
block turns into exit code 1). -/
def stoiModel (str : String) : Option Int :=
  match parseSigned (str.toList.dropWhile (fun c => c = ' ')) with
  | none => none
  | some v => if v < -(2 ^ 31) ∨ (2 ^ 31 - 1 : Int) < v then none else some v

/-- The implicit conversion `const unsigned seed = stoi(argv[1])` (lines 54
and 56): a C++ int converts to `unsigned` by reduction modulo 2^32. -/
def intToUnsigned (i : Int) : Nat := (i % (2 ^ 32 : Int)).toNat

/-- The driver's handling of the seed and maximum-number-of-iterations
arguments (lines 54-56): parse with `stoi`, then convert to `unsigned`. -/
def parseUnsignedArg (str : String) : Option Nat := (stoiModel str).map intToUnsigned

theorem stoiModel_range (str : String) (i : Int) (h : stoiModel str = some i) :
    -(2 ^ 31) ≤ i ∧ i ≤ 2 ^ 31 - 1 := by
  unfold stoiModel at h
  rcases hp : parseSigned (str.toList.dropWhile (fun c => c = ' ')) with _ | v
  · rw [hp] at h
    simp at h
  · rw [hp] at h
    have h' : (if v < -(2 ^ 31) ∨ (2 ^ 31 - 1 : Int) < v then none else some v) = some i := h
    by_cases hc : v < -(2 ^ 31) ∨ (2 ^ 31 - 1 : Int) < v
    · rw [if_pos hc] at h'
      simp at h'
    · rw [if_neg hc] at h'
      have hv : v = i := by simpa using h'
      subst hv
      push_neg at hc
      omega

/-- C10: when the seed or the maximum-number-of-iterations argument parses
(via `stoi`) as a negative integer, the driver does not reject it: the
parsed int is converted to `unsigned` modulo 2^32 and the run proceeds with
the wrapped value `i + 2^32`. -/
theorem negative_argument_wraps_modulo_2_pow_32
    (str : String) (i : Int) (h : stoiModel str = some i) (hneg : i < 0) :
    parseUnsignedArg str = some (intToUnsigned i)
    ∧ (intToUnsigned i : Int) = i + 2 ^ 32 := by
  have hrange := stoiModel_range str i h
  constructor
  · simp [parseUnsignedArg, h]
  · unfold intToUnsigned
    have hmod : i % (2 ^ 32 : Int) = i + 2 ^ 32 := by omega
    rw [hmod, Int.toNat_of_nonneg (by omega)]

/-- Witness for `negative_argument_wraps_modulo_2_pow_32` on the argument
string "-1", which wraps to 4294967295. -/
theorem negative_argument_wraps_modulo_2_pow_32_witness :
    stoiModel "-1" = some (-1)
    ∧ ((-1 : Int) < 0)
    ∧ (parseUnsignedArg "-1" = some (intToUnsigned (-1))
      ∧ (intToUnsigned (-1) : Int) = -1 + 2 ^ 32)
    ∧ intToUnsigned (-1) = 4294967295 :=
  ⟨by decide, by decide,
    negative_argument_wraps_modulo_2_pow_32 "-1" (-1) (by decide) (by decide),
    by decide⟩

/-- Modelled from the spec: the work partition of the worker pool (section
5): the list is split into contiguous batches, here of size `k + 1`. -/
def splitEvery {α : Type} : Nat → List α → List (List α)
  | _, [] => []
  | k, x :: xs => (x :: xs.take k) :: splitEvery k (xs.drop k)
termination_by _ l => l.length
decreasing_by simp [List.length_drop]; omega

theorem splitEvery_flatMap {α β : Type} (f : α → β) (k : Nat) (l : List α) :
    (splitEvery k l).flatMap (List.map f) = l.map f := by
  induction k, l using splitEvery.induct with
  | case1 k => simp [splitEvery]
  | case2 k x xs ih =>
    rw [splitEvery]
    simp only [List.flatMap_cons, ih, List.map_cons, List.cons_append]
    rw [← List.map_append, List.take_append_drop]

/-- Modelled from the spec: the seeded pseudo-random generator of sections
4.2 and 9 (one logical stream derived from the master seed), embedded as a
64-bit linear congruential generator. -/
def lcg (x : Nat) : Nat := (6364136223846793005 * x + 1442695040888963407) % 2 ^ 64

/-- A random key in [0,1) derived from a generator state. -/
def randKey (x : Nat) : ℚ := ((x % 2 ^ 32 : Nat) : ℚ) / ((2 ^ 32 : Nat) : ℚ)

/-- Generate a chromosome of `n` independently drawn genes, returning the
advanced generator state. -/
def genChromosome : Nat → Nat → Chromosome × Nat
  | 0, st => ([], st)
  | n + 1, st =>
    let rest := genChromosome n (lcg st)
    (randKey (lcg st) :: rest.1, rest.2)

/-- Generate `count` chromosomes of `n` genes each from one generator
stream. -/
def genChromosomes : Nat → Nat → Nat → List Chromosome × Nat
  | 0, _, st => ([], st)
  | count + 1, n, st =>
    let c := genChromosome n st
    let rest := genChromosomes count n c.2
    (c.1 :: rest.1, rest.2)

/-- Modelled from the spec: parallel decoding by the fixed worker pool of
section 5: the chromosomes are split into contiguous batches, each batch is
decoded independently by one worker (decoding is pure and shares no mutable
state), and the results are joined in input order at the barrier. -/
def parallelDecode (decode : Chromosome → Int) (num_threads : Nat)
    (cs : List Chromosome) : List Individual :=
  (splitEvery (cs.length / max num_threads 1) cs).flatMap
    (List.map (fun c => ⟨c, decode c⟩))

theorem parallelDecode_eq_decodeAll (decode : Chromosome → Int) (t : Nat)
    (cs : List Chromosome) : parallelDecode decode t cs = decodeAll decode cs :=
  splitEvery_flatMap (fun c => (⟨c, decode c⟩ : Individual)) (cs.length / max t 1) cs

/-- The full mutable state owned by the engine during a run. -/
structure EngineState where
  population : List Individual
  rng : Nat
  status : AlgorithmStatus

/-- The fitness at the head of a (sorted) population, or the incumbent when
the population is empty. -/
def headFitness (pop : List Individual) (incumbent : Int) : Int :=
  match pop with
  | [] => incumbent
  | ind :: _ => ind.fitness

/-- Modelled from the spec: one generation of the control loop under the
worker pool (sections 4.3, 4.7 and 5): elites are retained, the fresh
chromosomes of the generation are drawn from the seeded stream and decoded
by the pool, the population is re-sorted, and the status is updated at the
barrier. -/
def generationParallel (s : Sense) (decode : Chromosome → Int)
    (num_threads numElites n p : Nat) (es : EngineState) : EngineState :=
  let g := genChromosomes (p - numElites) n es.rng
  let newPop := sortPop s (es.population.take numElites ++ parallelDecode decode num_threads g.1)
  let newBest := updateBest s es.status.best_fitness (headFitness newPop es.status.best_fitness)
  { population := newPop
    rng := g.2
    status :=
      { current_iteration := es.status.current_iteration + 1
        best_fitness := newBest
        stall_count := if s.better newBest es.status.best_fitness then 0
          else (es.status.stall_count + 1) % 2 ^ 32
        elapsed_seconds := es.status.elapsed_seconds } }

/-- The per-generation AlgorithmStatus snapshots of `iters` generations. -/
def snapshotsFrom (s : Sense) (decode : Chromosome → Int)
    (num_threads numElites n p : Nat) : Nat → EngineState → List AlgorithmStatus
  | 0, _ => []
  | iters + 1, es =>
    (generationParallel s decode num_threads numElites n p es).status ::
      snapshotsFrom s decode num_threads numElites n p iters
        (generationParallel s decode num_threads numElites n p es)

/-- Modelled from the spec: a run of `iters` generations — seeded
initialization (section 4.2) followed by the control loop (section 4.7),
with all decoding performed by the worker pool (section 5) — producing the
sequence of AlgorithmStatus snapshots streamed to the caller. -/
def runSnapshots (s : Sense) (decode : Chromosome → Int)
    (num_threads seed numElites n p iters : Nat) : List AlgorithmStatus :=
  snapshotsFrom s decode num_threads numElites n p iters
    { population := sortPop s (parallelDecode decode num_threads (genChromosomes p n seed).1)
      rng := (genChromosomes p n seed).2
      status := initialStatus
        (headFitness (sortPop s (parallelDecode decode num_threads (genChromosomes p n seed).1)) 0) }

/-- C8: determinism regardless of thread count: two runs with the same seed,
the same parameters and the same decoder produce the identical sequence of
AlgorithmStatus snapshots whatever thread counts their worker pools use. -/
theorem snapshots_identical_regardless_of_thread_count
    (s : Sense) (decode : Chromosome → Int)
    (seed numElites n p iters t1 t2 : Nat) :
    runSnapshots s decode t1 seed numElites n p iters
      = runSnapshots s decode t2 seed numElites n p iters := by
  have hgen : ∀ t es, generationParallel s decode t numElites n p es
      = generationParallel s decode 1 numElites n p es := by
    intro t es
    simp only [generationParallel, parallelDecode_eq_decodeAll]
  have hsnap : ∀ iters t es, snapshotsFrom s decode t numElites n p iters es
      = snapshotsFrom s decode 1 numElites n p iters es := by
    intro iters
    induction iters with
    | zero => intro t es; rfl
    | succ iters ih =>
      intro t es
      simp only [snapshotsFrom]
      rw [hgen t es, ih t]
  simp only [runSnapshots, parallelDecode_eq_decodeAll]
  rw [hsnap iters t1, hsnap iters t2]
